import Mathlib

/-!
Verification of the GENESIS master generation pipeline
(`orchestration/generation/generation_master.py`).

Shallow embedding conventions:
* Python `int` is modelled as `Int` (or `Nat` where the source value is
  provably non-negative, e.g. PRNG states).
* Python `float` is modelled as `ℚ`.  Decimal literals of the source are
  taken as exact rationals.  `math.pi` is modelled as the exact rational
  value of the IEEE-754 double that Python's `math.pi` denotes.
* Machine words are `Nat` with explicit `% 2^w`; the source's
  `& 0xFFFFFFFFFFFFFFFF` masks equal `% 2^64` and are written as such.
* The only operation of the pipeline that can raise at runtime is float
  division (`ZeroDivisionError`); it is modelled by `pyDiv` returning
  `Option ℚ`, and the layer that uses it propagates the `Option`.
* `math.sqrt`, `math.sin`, `math.cos` are transcendental on their inputs;
  they are modelled by computable rational stand-ins (`pySqrt`, `pySin`,
  `pyCos`).  No claim of this development depends on the numeric values
  these stand-ins produce, only on the shape and counts of the records
  containing them.  Where the source *compares* two Euclidean distances
  (`layer_2_skeleton_topology`), the embedding compares squared distances,
  which selects exactly the same pair because `sqrt` is strictly monotone.
-/

namespace GenMaster

/-- Python `int(x)` on a float: truncation toward zero. -/
def pyInt (q : ℚ) : Int :=
  if 0 ≤ q then ⌊q⌋ else -⌊-q⌋

/-- Python `round(x, 4)`: round to 4 decimal places, ties to even
(banker's rounding, as Python's built-in `round` does). -/
def pyRound4 (q : ℚ) : ℚ :=
  let m : ℚ := q * 10000
  let n : ℤ := ⌊m⌋
  let r : ℤ :=
    if m - n < 1/2 then n
    else if 1/2 < m - n then n + 1
    else if Even n then n else n + 1
  (r : ℚ) / 10000

/-- Float division; Python raises `ZeroDivisionError` on a zero divisor,
modelled as `none`. -/
def pyDiv (a b : ℚ) : Option ℚ :=
  if b = 0 then none else some (a / b)

/-- The exact rational value of the IEEE-754 double `math.pi`. -/
def pyPi : ℚ := 884279719003555 / 281474976710656

/-- Computable stand-in for the double `math.sqrt` (truncated Babylonian
steps from a crude start).  Claims never depend on its values. -/
def pySqrt (q : ℚ) : ℚ :=
  if q ≤ 0 then 0
  else
    let s0 : ℚ := (q + 1) / 2
    let s1 := (s0 + q / s0) / 2
    let s2 := (s1 + q / s1) / 2
    let s3 := (s2 + q / s2) / 2
    s3

/-- Computable stand-in for the double `math.sin` (Taylor polynomial).
Claims never depend on its values. -/
def pySin (x : ℚ) : ℚ :=
  x - x^3/6 + x^5/120 - x^7/5040 + x^9/362880

/-- Computable stand-in for the double `math.cos` (Taylor polynomial).
Claims never depend on its values. -/
def pyCos (x : ℚ) : ℚ :=
  1 - x^2/2 + x^4/24 - x^6/720 + x^8/40320

/-! ### Seeded RNG — `class SeededRNG`, xorshift64 -/

/-- `x ^= (x << 13) & 0xFFFFFFFFFFFFFFFF` (the mask is `% 2^64`). -/
def xs1 (x : Nat) : Nat := x ^^^ ((x <<< 13) % 2^64)

/-- `x ^= (x >> 7) & 0xFFFFFFFFFFFFFFFF`. -/
def xs2 (x : Nat) : Nat := x ^^^ ((x >>> 7) % 2^64)

/-- `x ^= (x << 17) & 0xFFFFFFFFFFFFFFFF`. -/
def xs3 (x : Nat) : Nat := x ^^^ ((x <<< 17) % 2^64)

/-- One xorshift64 update exactly as `SeededRNG.next_u64` performs it:
`x = state & M`, then the three masked shift-xors in order. -/
def xsStep (s : Nat) : Nat := xs3 (xs2 (xs1 (s % 2^64)))

/-- `class SeededRNG`: deterministic xorshift64 PRNG state. -/
structure SeededRNG where
  state : Nat
deriving Repr, DecidableEq

namespace SeededRNG

/-- `__init__`: `self.state = seed if seed != 0 else 1`. -/
def init (seed : Nat) : SeededRNG :=
  ⟨if seed = 0 then 1 else seed⟩

/-- `next_u64`: update the state and return the new value. -/
def next_u64 (r : SeededRNG) : Nat × SeededRNG :=
  let x := xsStep r.state
  (x, ⟨x⟩)

/-- `next_float`: `(next_u64() & 0xFFFFFFFF) / 0xFFFFFFFF`. -/
def next_float (r : SeededRNG) : ℚ × SeededRNG :=
  let (u, r') := r.next_u64
  (((u % 2^32 : Nat) : ℚ) / 0xFFFFFFFF, r')

/-- `next_range`: `lo + next_float() * (hi - lo)`. -/
def next_range (r : SeededRNG) (lo hi : ℚ) : ℚ × SeededRNG :=
  let (f, r') := r.next_float
  (lo + f * (hi - lo), r')

end SeededRNG

/-! ### SHA-256 (needed by `derive_layer_seed`)

A byte-level SHA-256 over `Nat`, used to embed
`hashlib.sha256(raw.encode()).hexdigest()`.  The digest is returned as a
256-bit natural number (big-endian), so the source's `int(h[:16], 16)` is
`digest >>> 192`. -/

def rotr32 (x n : Nat) : Nat := ((x >>> n) ||| (x <<< (32 - n))) % 2^32

def add32 (a b : Nat) : Nat := (a + b) % 2^32

def shaCh (x y z : Nat) : Nat := (x &&& y) ^^^ ((x ^^^ 0xFFFFFFFF) &&& z)

def shaMaj (x y z : Nat) : Nat := (x &&& y) ^^^ (x &&& z) ^^^ (y &&& z)

def bSig0 (x : Nat) : Nat := rotr32 x 2 ^^^ rotr32 x 13 ^^^ rotr32 x 22

def bSig1 (x : Nat) : Nat := rotr32 x 6 ^^^ rotr32 x 11 ^^^ rotr32 x 25

def sSig0 (x : Nat) : Nat := rotr32 x 7 ^^^ rotr32 x 18 ^^^ (x >>> 3)

def sSig1 (x : Nat) : Nat := rotr32 x 17 ^^^ rotr32 x 19 ^^^ (x >>> 10)

def shaK : List Nat :=
  [1116352408, 1899447441, 3049323471, 3921009573, 961987163,
   1508970993, 2453635748, 2870763221, 3624381080, 310598401,
   607225278, 1426881987, 1925078388, 2162078206, 2614888103,
   3248222580, 3835390401, 4022224774, 264347078, 604807628,
   770255983, 1249150122, 1555081692, 1996064986, 2554220882,
   2821834349, 2952996808, 3210313671, 3336571891, 3584528711,
   113926993, 338241895, 666307205, 773529912, 1294757372,
   1396182291, 1695183700, 1986661051, 2177026350, 2456956037,
   2730485921, 2820302411, 3259730800, 3345764771, 3516065817,
   3600352804, 4094571909, 275423344, 430227734, 506948616,
   659060556, 883997877, 958139571, 1322822218, 1537002063,
   1747873779, 1955562222, 2024104815, 2227730452, 2361852424,
   2428436474, 2756734187, 3204031479, 3329325298]

def shaH0 : List Nat :=
  [1779033703, 3144134277, 1013904242, 2773480762,
   1359893119, 2600822924, 528734635, 1541459225]

/-- SHA-256 padding: append `0x80`, zero bytes, and the 64-bit big-endian
bit length, to a multiple of 64 bytes. -/
def shaPad (msg : List Nat) : List Nat :=
  let L := msg.length
  let k := (120 - (L + 1) % 64) % 64
  let bitLen := 8 * L
  msg ++ [0x80] ++ List.replicate k 0 ++
    (List.range 8).map (fun i => (bitLen >>> (8 * (7 - i))) % 256)

/-- Group bytes into big-endian 32-bit words. -/
def toWords : List Nat → List Nat
  | a :: b :: c :: d :: rest =>
      (((a % 256) <<< 24) ||| ((b % 256) <<< 16) ||| ((c % 256) <<< 8) ||| (d % 256))
        :: toWords rest
  | _ => []

/-- Split a word list into 16-word blocks (fuel-driven structural recursion). -/
def toBlocks : Nat → List Nat → List (List Nat)
  | 0, _ => []
  | _, [] => []
  | fuel + 1, l => l.take 16 :: toBlocks fuel (l.drop 16)

/-- Message schedule: extend 16 words to 64. -/
def shaSchedule (block : List Nat) : List Nat :=
  (List.range 48).foldl
    (fun w _ =>
      let t := w.length
      w ++ [add32 (add32 (sSig1 (w.getD (t - 2) 0)) (w.getD (t - 7) 0))
              (add32 (sSig0 (w.getD (t - 15) 0)) (w.getD (t - 16) 0))])
    block

/-- One SHA-256 compression round over the 8-word state. -/
def shaRound (w : List Nat) (st : Nat × Nat × Nat × Nat × Nat × Nat × Nat × Nat)
    (i : Nat) : Nat × Nat × Nat × Nat × Nat × Nat × Nat × Nat :=
  let (a, b, c, d, e, f, g, h) := st
  let t1 := add32 h (add32 (bSig1 e) (add32 (shaCh e f g)
      (add32 (shaK.getD i 0) (w.getD i 0))))
  let t2 := add32 (bSig0 a) (shaMaj a b c)
  (add32 t1 t2, a, b, c, add32 d t1, e, f, g)

/-- Compress one 16-word block into the running hash. -/
def shaCompress (hs : List Nat) (block : List Nat) : List Nat :=
  let w := shaSchedule block
  let st0 := (hs.getD 0 0, hs.getD 1 0, hs.getD 2 0, hs.getD 3 0,
              hs.getD 4 0, hs.getD 5 0, hs.getD 6 0, hs.getD 7 0)
  let (a, b, c, d, e, f, g, h) := (List.range 64).foldl (shaRound w) st0
  [add32 (hs.getD 0 0) a, add32 (hs.getD 1 0) b, add32 (hs.getD 2 0) c,
   add32 (hs.getD 3 0) d, add32 (hs.getD 4 0) e, add32 (hs.getD 5 0) f,
   add32 (hs.getD 6 0) g, add32 (hs.getD 7 0) h]

/-- SHA-256 of a byte list, as a 256-bit big-endian natural number. -/
def sha256Nat (msg : List Nat) : Nat :=
  let padded := shaPad msg
  let words := toWords padded
  let blocks := toBlocks (words.length + 1) words
  let hf := blocks.foldl shaCompress shaH0
  hf.foldl (fun acc w => acc * 2^32 + w) 0

/-! ### Decimal byte strings (the `f"{...}"` pieces fed to the hash) -/

/-- Decimal digits of `n`, least significant first (fuel recursion). -/
def natDigitsAux : Nat → Nat → List Nat
  | _, 0 => []
  | n, fuel + 1 => if n = 0 then [] else n % 10 :: natDigitsAux (n / 10) fuel

/-- ASCII bytes of the decimal representation of a natural number
(Python `str(n)` for `n ≥ 0`). -/
def natDecBytes (n : Nat) : List Nat :=
  if n = 0 then [48] else ((natDigitsAux n n).map (· + 48)).reverse

/-- ASCII bytes of the decimal representation of an integer
(Python `str(i)`, with `45 = '-'`). -/
def intDecBytes (i : Int) : List Nat :=
  if i < 0 then 45 :: natDecBytes i.natAbs else natDecBytes i.natAbs

/-- Python `str(n)` as a Lean string, for naturals. -/
def natDecString (n : Nat) : String :=
  String.mk ((natDecBytes n).map Char.ofNat)

/-- Python `str(i)` as a Lean string, for integers. -/
def intDecString (i : Int) : String :=
  String.mk ((intDecBytes i).map Char.ofNat)

/-! ### Layer 0: seed & configuration -/

/-- `derive_layer_seed`: SHA-256 of `f"{master_seed}:{layer_id}:{x}:{y}:{z}"`,
first 16 hex characters as an unsigned 64-bit integer (the top 64 bits of
the big-endian digest).  Byte 58 is ASCII `:`. -/
def derive_layer_seed (master_seed : Int) (layer_id : Nat)
    (chunk_x chunk_y chunk_z : Int) : Nat :=
  sha256Nat (intDecBytes master_seed ++ [58] ++ natDecBytes layer_id ++ [58] ++
    intDecBytes chunk_x ++ [58] ++ intDecBytes chunk_y ++ [58] ++
    intDecBytes chunk_z) >>> 192

/-- `class GenerationConfig` (layer 0 output). -/
structure GenerationConfig where
  master_seed : Int
  content_type : String
  density : ℚ
  chunk_coords : Int × Int × Int
  layer_seeds : List Nat
deriving Repr, DecidableEq

/-- `GenerationConfig.__init__`: stores the arguments and derives the six
layer seeds `{i: derive_layer_seed(master_seed, i, *chunk_coords) for i in range(6)}`. -/
def GenerationConfig.make (master_seed : Int) (content_type : String)
    (density : ℚ) (chunk_coords : Int × Int × Int) : GenerationConfig :=
  ⟨master_seed, content_type, density, chunk_coords,
   (List.range 6).map (fun i =>
     derive_layer_seed master_seed i chunk_coords.1 chunk_coords.2.1 chunk_coords.2.2)⟩

/-- `config.layer_seeds[i]`. -/
def GenerationConfig.layerSeed (cfg : GenerationConfig) (i : Nat) : Nat :=
  cfg.layer_seeds.getD i 0

/-! ### Layer 1: spatial distribution -/

/-- A distribution point (`points.append({...})` in layer 1). -/
structure Point where
  x : ℚ
  y : ℚ
  z : ℚ
  scale : ℚ
  rotation : ℚ
  type : String
deriving Repr, DecidableEq

instance : Inhabited Point := ⟨⟨0, 0, 0, 0, 0, ""⟩⟩

/-- `layer_1_spatial_distribution`: grid-jittered sampling.  The two float
divisions are the only fallible operations of the whole pipeline, hence the
`Option`: `cell_size = max(1.0, chunk_size / max(1, int(density*16)))` and
`cols = rows = int(chunk_size / cell_size)`. -/
def layer_1_spatial_distribution (cfg : GenerationConfig) : Option (List Point) :=
  let seed := cfg.layerSeed 1
  let rng0 := SeededRNG.init seed
  let chunk_size : ℚ := 64
  match pyDiv chunk_size ((max 1 (pyInt (cfg.density * 16)) : Int) : ℚ) with
  | none => none
  | some q =>
    let cell_size := max 1 q
    match pyDiv chunk_size cell_size with
    | none => none
    | some cq =>
      let cols := (pyInt cq).toNat
      let rows := (pyInt cq).toNat
      let (cx, cy, cz) := cfg.chunk_coords
      let step := fun (acc : List Point × SeededRNG) (rowcol : Nat × Nat) =>
        let (row, col) := rowcol
        let (pts, rng) := acc
        let (f, rng) := rng.next_float
        if cfg.density < f then (pts, rng)  -- `if rng.next_float() > density: continue`
        else
          let (fx, rng) := rng.next_float
          let x := ((col : ℚ) + fx) * cell_size + (cx : ℚ) * chunk_size
          let (fy, rng) := rng.next_float
          let y := ((row : ℚ) + fy) * cell_size + (cy : ℚ) * chunk_size
          let (z0, rng) := rng.next_range (-2) 2
          let z := z0 + (cz : ℚ) * chunk_size
          let (scale, rng) := rng.next_range 0.5 2
          let (rot, rng) := rng.next_range 0 (2 * pyPi)
          (pts ++ [⟨pyRound4 x, pyRound4 y, pyRound4 z,
                   pyRound4 scale, pyRound4 rot, cfg.content_type⟩], rng)
      let (pts, _) := ((List.range rows).flatMap (fun row =>
        (List.range cols).map (fun col => (row, col)))).foldl step ([], rng0)
      some pts

/-! ### Layer 2: skeleton topology -/

/-- A bone record; the source's keys `from` / `to` are `fromIdx` / `toIdx`
(`from` is reserved in Lean). -/
structure Bone where
  fromIdx : Nat
  toIdx : Nat
  length : ℚ
  stiffness : ℚ
deriving Repr, DecidableEq

/-- A joint: a point enriched with `joint_type` and `connectivity`.  The
`< 2`-points branch of the source returns the raw points (no extra keys),
modelled by `none` in both fields. -/
structure Joint where
  pt : Point
  joint_type : Option String
  connectivity : Option Nat
deriving Repr, DecidableEq

instance : Inhabited Joint := ⟨⟨default, none, none⟩⟩

structure Skeleton where
  joints : List Joint
  bones : List Bone
deriving Repr, DecidableEq

/-- Squared Euclidean distance.  The source's `_distance` takes a square
root and only ever *compares* the results; `sqrt` is strictly monotone on
nonnegative arguments, so comparing squares selects exactly the same pair. -/
def dist2 (a b : Point) : ℚ :=
  (a.x - b.x)^2 + (a.y - b.y)^2 + (a.z - b.z)^2

/-- The body of the inner `for j in range(n)` scan: skip in-tree `j`,
otherwise compare the (squared) distance against the current best, keeping
the first strict minimum.  `none` plays the role of `float("inf")`. -/
def innerUpd (subset : List Point) (inTree : List Bool) (i : Nat)
    (best : Option ℚ × Nat × Nat) (j : Nat) : Option ℚ × Nat × Nat :=
  if inTree.getD j false then best
  else
    let d := dist2 (subset.getD i default) (subset.getD j default)
    match best with
    | (none, _, _) => (some d, i, j)
    | (some bd, bi, bj) =>
        if d < bd then (some d, i, j) else (some bd, bi, bj)

/-- The body of the outer `for i in range(n)` scan: skip out-of-tree `i`,
otherwise run the inner scan. -/
def outerUpd (subset : List Point) (inTree : List Bool)
    (best : Option ℚ × Nat × Nat) (i : Nat) : Option ℚ × Nat × Nat :=
  if inTree.getD i false then
    (List.range subset.length).foldl (innerUpd subset inTree i) best
  else best

/-- The double scan of Prim's algorithm over all `(in-tree, out-of-tree)`
pairs, ascending in both indices, first strict minimum wins. -/
def scanPairs (subset : List Point) (inTree : List Bool) : Option ℚ × Nat × Nat :=
  (List.range subset.length).foldl (outerUpd subset inTree) (none, 0, 0)

/-- One iteration of the `for _ in range(n - 1)` loop: find the best
pair; if one exists (`best_dist < inf`), mark `j` in-tree and append a bone
(with the stiffness draw happening only in that case, as in the source). -/
def primStep (subset : List Point) (st : List Bool × List Bone × SeededRNG) :
    List Bool × List Bone × SeededRNG :=
  match scanPairs subset st.1 with
  | (none, _, _) => st
  | (some d, i, j) =>
      let rr := st.2.2.next_range 0.3 1
      (st.1.set j true,
       st.2.1 ++ [⟨i, j, pyRound4 (pySqrt d), pyRound4 rr.1⟩], rr.2)

/-- Joint classification by degree: `<= 1` leaf, `<= 3` branch, else hub. -/
def jointType (c : Nat) : String :=
  if c ≤ 1 then "leaf" else if c ≤ 3 then "branch" else "hub"

/-- `layer_2_skeleton_topology`: greedy MST (Prim) over the first 256
points, then degree-based joint classification. -/
def layer_2_skeleton_topology (cfg : GenerationConfig) (points : List Point) :
    Skeleton :=
  if points.length < 2 then
    ⟨points.map (fun p => ⟨p, none, none⟩), []⟩
  else
    let subset := points.take 256
    let n := subset.length
    let inTree0 := (List.replicate n false).set 0 true
    let rng := SeededRNG.init (cfg.layerSeed 2)
    let res := (primStep subset)^[n - 1] (inTree0, [], rng)
    let bones := res.2.1
    let conn := bones.foldl
      (fun c b =>
        let c := c.set b.fromIdx (c.getD b.fromIdx 0 + 1)
        c.set b.toIdx (c.getD b.toIdx 0 + 1))
      (List.replicate n 0)
    let joints := subset.enum.map
      (fun ip =>
        ⟨ip.2, some (jointType (conn.getD ip.1 0)), some (conn.getD ip.1 0)⟩)
    ⟨joints, bones⟩

/-! ### Layer 3: mesh & geometry -/

structure Vertex where
  x : ℚ
  y : ℚ
  z : ℚ
deriving Repr, DecidableEq

structure SkinWeight where
  bone : Nat
  weight_from : ℚ
  weight_to : ℚ
deriving Repr, DecidableEq

structure Mesh where
  vertices : List Vertex
  indices : List Nat
  skinning_weights : List SkinWeight
  triangle_count : Nat
deriving Repr, DecidableEq

def segments_per_bone : Nat := 6

def radial_divisions : Nat := 8

/-- The 8 vertices of ring `seg` of a bone (`for rad in range(radial_divisions)`). -/
def meshRing (jf : Point) (dx dy dz base_radius : ℚ) (seg : Nat) : List Vertex :=
  let t : ℚ := (seg : ℚ) / (segments_per_bone : ℚ)
  let px := jf.x + dx * t
  let py := jf.y + dy * t
  let pz := jf.z + dz * t
  let radius := base_radius * (1 - 0.3 * t)
  (List.range radial_divisions).map
    (fun (rad : Nat) =>
      let angle := 2 * pyPi * (rad : ℚ) / (radial_divisions : ℚ)
      ⟨pyRound4 (px + radius * pyCos angle), pyRound4 py,
       pyRound4 (pz + radius * pySin angle)⟩)

/-- The 8 skinning-weight entries of ring `seg`
(`{"bone": bone_idx, "weight_from": round(1.0 - t, 4), "weight_to": round(t, 4)}`). -/
def ringWeights (bone_idx seg : Nat) : List SkinWeight :=
  (List.range radial_divisions).map
    (fun (_ : Nat) =>
      ⟨bone_idx, pyRound4 (1 - (seg : ℚ) / (segments_per_bone : ℚ)),
       pyRound4 ((seg : ℚ) / (segments_per_bone : ℚ))⟩)

/-- The 48 triangle indices connecting the ring at `base_v` to the next
ring (`indices.extend([...])` for each of the 8 radial quads). -/
def ringIndices (base_v : Nat) : List Nat :=
  let next_base := base_v + radial_divisions
  (List.range radial_divisions).flatMap
    (fun rad =>
      let r_next := (rad + 1) % radial_divisions
      [base_v + rad, next_base + rad, next_base + r_next,
       base_v + rad, next_base + r_next, base_v + r_next])

/-- The body of the `for seg in range(segments_per_bone + 1)` loop: append
the ring's vertices and weights; while `seg < segments_per_bone`, also
append triangle indices with `base_v = len(vertices) - radial_divisions`
evaluated on the vertex list as it stands after the ring was appended. -/
def ringStep (jf : Point) (dx dy dz base_radius : ℚ) (bone_idx : Nat)
    (acc : List Vertex × List Nat × List SkinWeight) (seg : Nat) :
    List Vertex × List Nat × List SkinWeight :=
  let vs' := acc.1 ++ meshRing jf dx dy dz base_radius seg
  let ws' := acc.2.2 ++ ringWeights bone_idx seg
  let idx' :=
    if seg < segments_per_bone then
      acc.2.1 ++ ringIndices (vs'.length - radial_divisions)
    else acc.2.1
  (vs', idx', ws')

/-- The `for seg in range(segments_per_bone + 1)` loop of one bone. -/
def boneLoop (jf : Point) (dx dy dz base_radius : ℚ) (bone_idx : Nat)
    (acc : List Vertex × List Nat × List SkinWeight) :
    List Vertex × List Nat × List SkinWeight :=
  (List.range (segments_per_bone + 1)).foldl
    (ringStep jf dx dy dz base_radius bone_idx) acc

/-- The body of the `for bone_idx, bone in enumerate(bones)` loop.  The
accumulator is `(vertices, indices, skinning_weights, rng)`. -/
def boneStep (joints : List Joint)
    (acc : List Vertex × List Nat × List SkinWeight × SeededRNG)
    (ib : Nat × Bone) : List Vertex × List Nat × List SkinWeight × SeededRNG :=
  let bone := ib.2
  if joints.length ≤ bone.fromIdx ∨ joints.length ≤ bone.toIdx then
    acc  -- `continue`: out-of-range bones contribute nothing
  else
    let jf := (joints.getD bone.fromIdx default).pt
    let jt := (joints.getD bone.toIdx default).pt
    -- the source computes `length = max(0.001, sqrt(dx²+dy²+dz²))` here and
    -- never uses it; the one `base_radius` draw below is `rr`
    let rr := acc.2.2.2.next_range 0.1 0.5
    let res := boneLoop jf (jt.x - jf.x) (jt.y - jf.y) (jt.z - jf.z) rr.1 ib.1
      (acc.1, acc.2.1, acc.2.2.1)
    (res.1, res.2.1, res.2.2, rr.2)

/-- `layer_3_mesh_geometry`: tube extrusion along every in-range bone. -/
def layer_3_mesh_geometry (cfg : GenerationConfig) (skel : Skeleton) : Mesh :=
  let rng0 := SeededRNG.init (cfg.layerSeed 3)
  let res := skel.bones.enum.foldl (boneStep skel.joints) ([], [], [], rng0)
  ⟨res.1, res.2.1, res.2.2.1, res.2.1.length / 3⟩

/-! ### Layer 4: asset & animation -/

structure Texel where
  r : ℚ
  g : ℚ
  b : ℚ
deriving Repr, DecidableEq

structure Texture where
  name : String
  width : Nat
  height : Nat
  pixel_count : Nat
  sample : List Texel
deriving Repr, DecidableEq

structure RigJoint where
  id : Nat
  name : String
  length : ℚ
  stiffness : ℚ
deriving Repr, DecidableEq

structure Rig where
  joint_count : Nat
  joints : List RigJoint
deriving Repr, DecidableEq

structure BoneTransform where
  joint : Nat
  rx : ℚ
  ry : ℚ
  rz : ℚ
deriving Repr, DecidableEq

structure Keyframe where
  frame : Nat
  transforms : List BoneTransform
deriving Repr, DecidableEq

structure AnimationClip where
  name : String
  fps : Nat
  total_frames : Nat
  keyframe_count : Nat
  keyframes : List Keyframe
deriving Repr, DecidableEq

structure Assets where
  textures : List Texture
  rig : Rig
  animations : List AnimationClip
deriving Repr, DecidableEq

/-- The per-content-type palettes; unknown types fall back to "creature". -/
def palette (ct : String) : List (ℚ × ℚ × ℚ) :=
  if ct = "vegetation" then [(0.2, 0.6, 0.2), (0.15, 0.5, 0.15), (0.3, 0.7, 0.1)]
  else if ct = "mineral" then [(0.5, 0.5, 0.55), (0.6, 0.58, 0.55), (0.4, 0.4, 0.45)]
  else [(0.6, 0.4, 0.3), (0.5, 0.35, 0.25), (0.7, 0.5, 0.4)]

/-- Zero-padded 3-digit bone names, Python `f"bone_{i:03d}"`. -/
def boneName (i : Nat) : String :=
  "bone_" ++ (if i < 10 then "00" else if i < 100 then "0" else "") ++ natDecString i

/-- One animation clip ("idle" or "walk"). -/
def animClip (rigCount : Nat) (clip_name : String) : AnimationClip :=
  let frames := if clip_name = "idle" then 30 else 60
  let keyframes := (List.range (frames / 5)).map
    (fun (k : Nat) =>
      let f : Nat := 5 * k
      let t : ℚ := (f : ℚ) / (frames : ℚ)
      let transforms := (List.range (min rigCount 16)).map
        (fun (j : Nat) =>
          let amplitude : ℚ := if clip_name = "idle" then 0.05 else 0.3
          ⟨j, pyRound4 (amplitude * pySin (2 * pyPi * t + (j : ℚ) * 0.5)),
              pyRound4 (amplitude * pyCos (2 * pyPi * t + (j : ℚ) * 0.3)), 0⟩)
      ⟨f, transforms⟩)
  ⟨clip_name, 30, frames, keyframes.length, keyframes⟩

/-- `layer_4_assets_animation`: procedural texture, auto-rig, clips. -/
def layer_4_assets_animation (cfg : GenerationConfig) (_mesh : Mesh)
    (skel : Skeleton) : Assets :=
  let rng0 := SeededRNG.init (cfg.layerSeed 4)
  let bones := skel.bones
  let pal := palette cfg.content_type
  let tex_size := 64
  let (texels, _) := (List.range (tex_size * tex_size)).foldl
    (fun (acc : List Texel × SeededRNG) _ =>
      let (ts, rng) := acc
      let (f, rng) := rng.next_float
      let base := pal.getD ((pyInt (f * (pal.length : ℚ))).toNat % pal.length) (0, 0, 0)
      let (noise, rng) := rng.next_range (-0.05) 0.05
      (ts ++ [⟨pyRound4 (min 1 (max 0 (base.1 + noise))),
              pyRound4 (min 1 (max 0 (base.2.1 + noise))),
              pyRound4 (min 1 (max 0 (base.2.2 + noise)))⟩], rng))
    ([], rng0)
  let textures : List Texture :=
    [⟨cfg.content_type ++ "_diffuse", tex_size, tex_size,
      texels.length, texels.take 4⟩]
  let rig_joints := bones.enum.map
    (fun ib => (⟨ib.1, boneName ib.1, ib.2.length, ib.2.stiffness⟩ : RigJoint))
  let animations := ["idle", "walk"].map (animClip rig_joints.length)
  ⟨textures, ⟨rig_joints.length, rig_joints⟩, animations⟩

/-! ### Layer 5: world integration -/

structure LOD where
  level : Nat
  distance : ℚ
  triangle_count : Int
  vertex_count : Int
deriving Repr, DecidableEq

structure BoundingSphere where
  cx : Int
  cy : Int
  cz : Int
  radius : ℚ
deriving Repr, DecidableEq

structure ContentNode where
  id : String
  type : String
  lods : List LOD
  bounding_sphere : BoundingSphere
  has_animation : Bool
  has_physics : Bool
deriving Repr, DecidableEq

structure ChunkNode where
  id : String
  type : String
  tx : Int
  ty : Int
  tz : Int
  children : List String
deriving Repr, DecidableEq

structure InteractionZone where
  type : String
  radius : ℚ
  trigger : String
deriving Repr, DecidableEq

structure ExportManifest where
  format : String
  meshes : Nat
  materials : Nat
  animations : Nat
  lod_levels : Nat
  total_vertices : Nat
  total_triangles : Nat
deriving Repr, DecidableEq

/-- The two heterogeneous dict shapes pushed onto `scene_nodes`. -/
inductive SceneNode where
  | chunk : ChunkNode → SceneNode
  | content : ContentNode → SceneNode
deriving Repr, DecidableEq

structure Scene where
  scene_graph : List SceneNode
  interaction_zones : List InteractionZone
  export_manifest : ExportManifest
  export_format : String
deriving Repr, DecidableEq

/-- `layer_5_world_integration`: scene graph, LODs, bounding sphere,
interaction zones (creature only), export manifest.  Note the source's
bounding sphere: `{"cx": cx*64+32, "cy": cy*64+32, "cz": cz*64, ...}` —
the z component has no `+ 32`. -/
def layer_5_world_integration (cfg : GenerationConfig) (mesh : Mesh)
    (assets : Assets) : Scene :=
  let rng0 := SeededRNG.init (cfg.layerSeed 5)
  let (cx, cy, cz) := cfg.chunk_coords
  let vertex_count := mesh.vertices.length
  let tri_count := mesh.triangle_count
  let lods : List LOD := (List.range 3).map
    (fun (lod_level : Nat) =>
      let reduction : ℚ := 1 / 2^lod_level
      ⟨lod_level, (lod_level : ℚ) * 50,
       max 1 (pyInt ((tri_count : ℚ) * reduction)),
       max 1 (pyInt ((vertex_count : ℚ) * reduction))⟩)
  let content_node : ContentNode :=
    ⟨"content_" ++ cfg.content_type ++ "_" ++ intDecString cx ++ "_" ++
       intDecString cy ++ "_" ++ intDecString cz,
     cfg.content_type, lods,
     ⟨cx * 64 + 32, cy * 64 + 32, cz * 64, 45⟩,
     0 < assets.animations.length,
     cfg.content_type == "creature"⟩
  let chunk_node : ChunkNode :=
    ⟨"chunk_" ++ intDecString cx ++ "_" ++ intDecString cy ++ "_" ++ intDecString cz,
     "chunk_root", cx * 64, cy * 64, cz * 64, [content_node.id]⟩
  let zones : List InteractionZone × SeededRNG :=
    if cfg.content_type = "creature" then
      let (r1, rng) := rng0.next_range 10 30
      let (r2, rng) := rng.next_range 3 8
      ([⟨"awareness", r1, "proximity"⟩, ⟨"combat", r2, "aggression"⟩], rng)
    else ([], rng0)
  let manifest : ExportManifest :=
    ⟨"fbx", 1, assets.textures.length, assets.animations.length,
     lods.length, vertex_count, tri_count⟩
  ⟨[SceneNode.chunk chunk_node, SceneNode.content content_node],
   zones.1, manifest, "fbx"⟩

/-! ### Pipeline driver -/

structure ResultSkeleton where
  joints : Nat
  bones : Nat
deriving Repr, DecidableEq

structure ResultMesh where
  vertices : Nat
  triangles : Nat
deriving Repr, DecidableEq

structure ResultAssets where
  textures : Nat
  rig_joints : Nat
  animations : Nat
deriving Repr, DecidableEq

structure ResultScene where
  nodes : Nat
  interaction_zones : Nat
  export_format : String
deriving Repr, DecidableEq

/-- The aggregate result record returned by `run_pipeline`. -/
structure PipelineResult where
  config : GenerationConfig
  points : Nat
  skeleton : ResultSkeleton
  mesh : ResultMesh
  assets : ResultAssets
  scene : ResultScene
  output_format : String
deriving Repr, DecidableEq

/-- `run_pipeline`: layers 0-5 in sequence, aggregated counts. -/
def run_pipeline (master_seed : Int) (content_type : String) (density : ℚ)
    (chunk_coords : Int × Int × Int) (output_format : String := "fbx") :
    Option PipelineResult :=
  let cfg := GenerationConfig.make master_seed content_type density chunk_coords
  match layer_1_spatial_distribution cfg with
  | none => none
  | some points =>
    let skel := layer_2_skeleton_topology cfg points
    let mesh := layer_3_mesh_geometry cfg skel
    let assets := layer_4_assets_animation cfg mesh skel
    let scene := layer_5_world_integration cfg mesh assets
    some ⟨cfg, points.length,
      ⟨skel.joints.length, skel.bones.length⟩,
      ⟨mesh.vertices.length, mesh.triangle_count⟩,
      ⟨assets.textures.length, assets.rig.joint_count, assets.animations.length⟩,
      ⟨scene.scene_graph.length, scene.interaction_zones.length, scene.export_format⟩,
      output_format⟩

/-! ## Derived accessors used by the claims -/

/-- The content nodes of a scene graph. -/
def Scene.contentNodes (s : Scene) : List ContentNode :=
  s.scene_graph.filterMap
    (fun n => match n with
      | SceneNode.content c => some c
      | SceneNode.chunk _ => none)

/-- The generator state after `n` calls of `next_u64`. -/
def rngAfter (r : SeededRNG) : Nat → SeededRNG
  | 0 => r
  | n + 1 => (rngAfter r n).next_u64.2

/-- A bone both of whose endpoint indices are in range for the joint list
(the bones `layer_3_mesh_geometry` does *not* skip). -/
def validB (joints : List Joint) (b : Bone) : Bool :=
  decide (b.fromIdx < joints.length) && decide (b.toIdx < joints.length)

/-- Undirected adjacency on joint indices induced by a bone list. -/
def adjB (bones : List Bone) (u v : Nat) : Prop :=
  ∃ b ∈ bones, (b.fromIdx = u ∧ b.toIdx = v) ∨ (b.fromIdx = v ∧ b.toIdx = u)

/-- The simple graph over the `n` joints whose edge set is the bone list. -/
def boneGraph (n : Nat) (bones : List Bone) : SimpleGraph (Fin n) :=
  SimpleGraph.fromRel (fun u v => ∃ b ∈ bones, b.fromIdx = u.val ∧ b.toIdx = v.val)

/-- Number of `true` entries of the in-tree mask. -/
def countTrue (l : List Bool) : Nat := l.count true

/-- Later bones enter on a vertex (`toIdx`) that was still outside the tree
when every earlier bone was recorded. -/
def freshRel (b b' : Bone) : Prop :=
  b'.toIdx ≠ b.fromIdx ∧ b'.toIdx ≠ b.toIdx

/-- The soundness predicate of the pair scan: whenever a best pair has been
recorded, its `i` is in-tree, its `j` is out-of-tree, and both are in range. -/
def GoodBest (subset : List Point) (inTree : List Bool)
    (b : Option ℚ × Nat × Nat) : Prop :=
  ∀ d, b.1 = some d →
    b.2.1 < subset.length ∧ b.2.2 < subset.length ∧
    inTree.getD b.2.1 false = true ∧ inTree.getD b.2.2 false = false

/-- The loop invariant of Prim's construction after `k` iterations over a
point subset of size `n`. -/
structure PrimInv (n k : Nat) (st : List Bool × List Bone × SeededRNG) : Prop where
  len : st.1.length = n
  cnt : countTrue st.1 = k + 1
  root : st.1.getD 0 false = true
  blen : st.2.1.length = k
  bnd : ∀ b ∈ st.2.1, b.fromIdx < n ∧ b.toIdx < n ∧ b.fromIdx ≠ b.toIdx ∧
        st.1.getD b.fromIdx false = true ∧ st.1.getD b.toIdx false = true
  reach : ∀ v < n, st.1.getD v false = true →
        Relation.ReflTransGen (adjB st.2.1) 0 v
  fresh : List.Pairwise freshRel st.2.1

/-! ## Supporting lemmas -/

theorem xs1_lt {x : Nat} (hlt : x < 2^64) : xs1 x < 2^64 :=
  Nat.xor_lt_two_pow hlt (Nat.mod_lt _ (by norm_num))

theorem xs2_lt {x : Nat} (hlt : x < 2^64) : xs2 x < 2^64 :=
  Nat.xor_lt_two_pow hlt (Nat.mod_lt _ (by norm_num))

theorem xs3_lt {x : Nat} (hlt : x < 2^64) : xs3 x < 2^64 :=
  Nat.xor_lt_two_pow hlt (Nat.mod_lt _ (by norm_num))

theorem xsStep_lt (s : Nat) : xsStep s < 2^64 :=
  xs3_lt (xs2_lt (xs1_lt (Nat.mod_lt _ (by norm_num))))

/-- If `x = x * 2^k (mod 2^64)` for `0 < x < 2^64` then `x = 0` — the core of
the zero-avoidance of the two left-shift xor stages. -/
theorem xor_shiftLeft_ne_zero {x : Nat} (k : Nat) (hx : x ≠ 0) (hlt : x < 2^64)
    (hcop : Nat.Coprime (2^64) (2^k - 1)) :
    x ^^^ ((x <<< k) % 2^64) ≠ 0 := by
  intro h
  have h' := Nat.xor_eq_zero.mp h
  rw [Nat.shiftLeft_eq] at h'
  have hx2 : x % 2^64 = (x * 2^k) % 2^64 := by
    rw [Nat.mod_eq_of_lt hlt]; exact h'
  have hle : x ≤ x * 2^k := Nat.le_mul_of_pos_right x (by positivity)
  have hdvd : 2^64 ∣ x * 2^k - x := (Nat.modEq_iff_dvd' hle).mp hx2
  have heq : x * 2^k - x = x * (2^k - 1) := by
    rw [Nat.mul_sub, Nat.mul_one]
  rw [heq] at hdvd
  exact hx (Nat.eq_zero_of_dvd_of_lt (hcop.dvd_of_dvd_mul_right hdvd) hlt)

theorem xs1_ne_zero {x : Nat} (hx : x ≠ 0) (hlt : x < 2^64) : xs1 x ≠ 0 :=
  xor_shiftLeft_ne_zero 13 hx hlt (by decide)

theorem xs3_ne_zero {x : Nat} (hx : x ≠ 0) (hlt : x < 2^64) : xs3 x ≠ 0 :=
  xor_shiftLeft_ne_zero 17 hx hlt (by decide)

theorem xs2_ne_zero {x : Nat} (hx : x ≠ 0) (hlt : x < 2^64) : xs2 x ≠ 0 := by
  intro h
  have h' := Nat.xor_eq_zero.mp h
  have hle : x >>> 7 ≤ x := by
    rw [Nat.shiftRight_eq_div_pow]; exact Nat.div_le_self x (2^7)
  have hsr : (x >>> 7) % 2^64 = x >>> 7 :=
    Nat.mod_eq_of_lt (lt_of_le_of_lt hle hlt)
  rw [hsr, Nat.shiftRight_eq_div_pow] at h'
  have hdiv : x / 2^7 < x := Nat.div_lt_self (Nat.pos_of_ne_zero hx) (by norm_num)
  omega

theorem xsStep_ne_zero {s : Nat} (hs : s ≠ 0) (hlt : s < 2^64) : xsStep s ≠ 0 := by
  have h0 : s % 2^64 = s := Nat.mod_eq_of_lt hlt
  show xs3 (xs2 (xs1 (s % 2^64))) ≠ 0
  rw [h0]
  exact xs3_ne_zero (xs2_ne_zero (xs1_ne_zero hs hlt) (xs1_lt hlt)) (xs2_lt (xs1_lt hlt))

/-- Layer 1 always returns `some`: both of its divisions are guarded by
`max(1, ·)`, so the divisors cannot be zero. -/
theorem layer_1_isSome (cfg : GenerationConfig) :
    (layer_1_spatial_distribution cfg).isSome = true := by
  unfold layer_1_spatial_distribution
  have h1 : ((max 1 (pyInt (cfg.density * 16)) : Int) : ℚ) ≠ 0 := by
    have h : (1 : Int) ≤ max 1 (pyInt (cfg.density * 16)) := le_max_left _ _
    have h' : (max 1 (pyInt (cfg.density * 16)) : Int) ≠ 0 := by omega
    exact_mod_cast h'
  have h2 : (max 1 ((64 : ℚ) / ((max 1 (pyInt (cfg.density * 16)) : Int) : ℚ)) : ℚ) ≠ 0 :=
    ne_of_gt (lt_of_lt_of_le one_pos (le_max_left _ _))
  simp only [pyDiv, if_neg h1, if_neg h2]
  rfl

/-! ### Mesh layer lemmas -/

theorem meshRing_length (jf : Point) (dx dy dz br : ℚ) (seg : Nat) :
    (meshRing jf dx dy dz br seg).length = 8 := by
  simp [meshRing, radial_divisions]

theorem ringWeights_length (bi seg : Nat) : (ringWeights bi seg).length = 8 := by
  simp [ringWeights, radial_divisions]

theorem ringIndices_length (b : Nat) : (ringIndices b).length = 48 := rfl

theorem ringIndices_mem {x b : Nat} (hx : x ∈ ringIndices b) : x < b + 16 := by
  unfold ringIndices at hx
  rw [List.mem_flatMap] at hx
  obtain ⟨rad, hrad, hmem⟩ := hx
  rw [List.mem_range] at hrad
  have hm : (rad + 1) % radial_divisions < 8 :=
    Nat.mod_lt _ (by unfold radial_divisions; omega)
  simp only [List.mem_cons, List.not_mem_nil, or_false] at hmem
  unfold radial_divisions at hrad hm hmem
  rcases hmem with h | h | h | h | h | h <;> omega

/-- For `seg = 0, …, 6` the two rounded skinning weights sum to exactly 1. -/
theorem weight_sum_eq_one {seg : Nat} (h : seg ≤ 6) :
    pyRound4 (1 - (seg : ℚ) / (segments_per_bone : ℚ)) +
      pyRound4 ((seg : ℚ) / (segments_per_bone : ℚ)) = 1 := by
  interval_cases seg <;> decide!

/-- `ringStep` written out: the ring's index block starts at the vertex
count *before* the ring was appended (`base_v = len(vertices) -
radial_divisions` taken after appending the 8 ring vertices). -/
theorem ringStep_eq (jf : Point) (dx dy dz br : ℚ) (bi : Nat)
    (vs : List Vertex) (idx : List Nat) (ws : List SkinWeight) (seg : Nat) :
    ringStep jf dx dy dz br bi (vs, idx, ws) seg =
      (vs ++ meshRing jf dx dy dz br seg,
       (if seg < segments_per_bone then idx ++ ringIndices vs.length else idx),
       ws ++ ringWeights bi seg) := by
  simp [ringStep, meshRing_length, radial_divisions]

theorem ringFold_lengths (jf : Point) (dx dy dz br : ℚ) (bi : Nat) (L : List Nat)
    (vs : List Vertex) (idx : List Nat) (ws : List SkinWeight) :
    ((L.foldl (ringStep jf dx dy dz br bi) (vs, idx, ws)).1.length
        = vs.length + 8 * L.length) ∧
    ((L.foldl (ringStep jf dx dy dz br bi) (vs, idx, ws)).2.2.length
        = ws.length + 8 * L.length) ∧
    ((L.foldl (ringStep jf dx dy dz br bi) (vs, idx, ws)).2.1.length
        = idx.length + 48 * L.countP (fun s => decide (s < segments_per_bone))) := by
  induction L generalizing vs idx ws with
  | nil => simp
  | cons s L ih =>
      rw [List.foldl_cons, ringStep_eq]
      obtain ⟨h1, h2, h3⟩ := ih (vs ++ meshRing jf dx dy dz br s)
        (if s < segments_per_bone then idx ++ ringIndices vs.length else idx)
        (ws ++ ringWeights bi s)
      refine ⟨?_, ?_, ?_⟩
      · rw [h1, List.length_append, meshRing_length, List.length_cons]; omega
      · rw [h2, List.length_append, ringWeights_length, List.length_cons]; omega
      · rw [h3, List.countP_cons]
        by_cases hs : s < segments_per_bone
        · rw [if_pos hs, List.length_append, ringIndices_length]
          simp only [hs, decide_eq_true_eq, if_pos]
          omega
        · rw [if_neg hs]
          simp only [hs, decide_eq_true_eq, if_neg, if_false]
          omega

theorem ringFold_idx_lt (jf : Point) (dx dy dz br : ℚ) (bi : Nat) (L : List Nat)
    (vs : List Vertex) (idx : List Nat) (ws : List SkinWeight)
    (h : ∀ x ∈ idx, x < vs.length + 8) :
    ∀ x ∈ (L.foldl (ringStep jf dx dy dz br bi) (vs, idx, ws)).2.1,
      x < (L.foldl (ringStep jf dx dy dz br bi) (vs, idx, ws)).1.length + 8 := by
  induction L generalizing vs idx ws with
  | nil => exact h
  | cons s L ih =>
      rw [List.foldl_cons, ringStep_eq]
      apply ih
      intro x hx
      rw [List.length_append, meshRing_length]
      by_cases hs : s < segments_per_bone
      · rw [if_pos hs] at hx
        rcases List.mem_append.mp hx with hx | hx
        · have := h x hx; omega
        · have := ringIndices_mem hx; omega
      · rw [if_neg hs] at hx
        have := h x hx; omega

theorem ringFold_weights (jf : Point) (dx dy dz br : ℚ) (bi : Nat) (L : List Nat)
    (vs : List Vertex) (idx : List Nat) (ws : List SkinWeight)
    (hL : ∀ s ∈ L, s ≤ 6)
    (h : ∀ w ∈ ws, w.weight_from + w.weight_to = 1) :
    ∀ w ∈ (L.foldl (ringStep jf dx dy dz br bi) (vs, idx, ws)).2.2,
      w.weight_from + w.weight_to = 1 := by
  induction L generalizing vs idx ws with
  | nil => exact h
  | cons s L ih =>
      rw [List.foldl_cons, ringStep_eq]
      apply ih _ _ _ (fun t ht => hL t (List.mem_cons_of_mem _ ht))
      intro w hw
      rcases List.mem_append.mp hw with hw | hw
      · exact h w hw
      · simp only [ringWeights, List.mem_map] at hw
        obtain ⟨r, _, rfl⟩ := hw
        exact weight_sum_eq_one (hL s (List.mem_cons_self _ _))

/-- Per-bone totals: one in-range bone contributes exactly 56 vertices,
56 skinning weights and 288 triangle indices, keeps every index strictly
below the vertex count, and keeps all weight sums at 1. -/
theorem boneLoop_spec (jf : Point) (dx dy dz br : ℚ) (bi : Nat)
    (vs : List Vertex) (idx : List Nat) (ws : List SkinWeight) :
    ((boneLoop jf dx dy dz br bi (vs, idx, ws)).1.length = vs.length + 56) ∧
    ((boneLoop jf dx dy dz br bi (vs, idx, ws)).2.2.length = ws.length + 56) ∧
    ((boneLoop jf dx dy dz br bi (vs, idx, ws)).2.1.length = idx.length + 288) ∧
    ((∀ x ∈ idx, x < vs.length) →
      ∀ x ∈ (boneLoop jf dx dy dz br bi (vs, idx, ws)).2.1,
        x < (boneLoop jf dx dy dz br bi (vs, idx, ws)).1.length) ∧
    ((∀ w ∈ ws, w.weight_from + w.weight_to = 1) →
      ∀ w ∈ (boneLoop jf dx dy dz br bi (vs, idx, ws)).2.2,
        w.weight_from + w.weight_to = 1) := by
  obtain ⟨h1, h2, h3⟩ :=
    ringFold_lengths jf dx dy dz br bi (List.range (segments_per_bone + 1)) vs idx ws
  have hcount : (List.range (segments_per_bone + 1)).countP
      (fun s => decide (s < segments_per_bone)) = 6 := by decide
  have hlen : (List.range (segments_per_bone + 1)).length = 7 := by decide
  have hsplit : List.range (segments_per_bone + 1)
      = List.range segments_per_bone ++ [segments_per_bone] := by decide
  rw [hcount] at h3
  rw [hlen] at h1 h2
  refine ⟨h1, h2, h3, ?_, ?_⟩
  · intro h0
    unfold boneLoop
    rw [hsplit, List.foldl_append, List.foldl_cons, List.foldl_nil]
    have hQ := ringFold_idx_lt jf dx dy dz br bi (List.range segments_per_bone)
      vs idx ws (fun x hx => by have := h0 x hx; omega)
    rcases hfold : (List.range segments_per_bone).foldl
        (ringStep jf dx dy dz br bi) (vs, idx, ws) with ⟨mvs, midx, mws⟩
    rw [hfold] at hQ
    dsimp only at hQ
    rw [ringStep_eq]
    intro x hx
    rw [if_neg (lt_irrefl _)] at hx
    rw [List.length_append, meshRing_length]
    have := hQ x hx
    omega
  · intro h0
    unfold boneLoop
    exact ringFold_weights jf dx dy dz br bi _ vs idx ws
      (fun s hs => by have := List.mem_range.mp hs
                      unfold segments_per_bone at this; omega) h0

/-- The outer fold over `enumerate(bones)`: totals scale with the number of
in-range bones, and the index-bound and weight-sum invariants are kept. -/
theorem boneFold_spec (joints : List Joint) (lst : List (Nat × Bone))
    (vs : List Vertex) (idx : List Nat) (ws : List SkinWeight) (rng : SeededRNG) :
    ((lst.foldl (boneStep joints) (vs, idx, ws, rng)).1.length
        = vs.length + 56 * lst.countP (fun ib => validB joints ib.2)) ∧
    ((lst.foldl (boneStep joints) (vs, idx, ws, rng)).2.2.1.length
        = ws.length + 56 * lst.countP (fun ib => validB joints ib.2)) ∧
    ((lst.foldl (boneStep joints) (vs, idx, ws, rng)).2.1.length
        = idx.length + 288 * lst.countP (fun ib => validB joints ib.2)) ∧
    ((∀ x ∈ idx, x < vs.length) →
      ∀ x ∈ (lst.foldl (boneStep joints) (vs, idx, ws, rng)).2.1,
        x < (lst.foldl (boneStep joints) (vs, idx, ws, rng)).1.length) ∧
    ((∀ w ∈ ws, w.weight_from + w.weight_to = 1) →
      ∀ w ∈ (lst.foldl (boneStep joints) (vs, idx, ws, rng)).2.2.1,
        w.weight_from + w.weight_to = 1) := by
  induction lst generalizing vs idx ws rng with
  | nil => simp
  | cons ib lst ih =>
      rw [List.foldl_cons]
      by_cases hv : joints.length ≤ ib.2.fromIdx ∨ joints.length ≤ ib.2.toIdx
      · have hstep : boneStep joints (vs, idx, ws, rng) ib = (vs, idx, ws, rng) := by
          unfold boneStep; rw [if_pos hv]
        have hcnt : validB joints ib.2 = false := by
          simp only [validB, Bool.and_eq_false_iff, decide_eq_false_iff_not, not_lt]
          omega
        rw [hstep, List.countP_cons, hcnt]
        simpa using ih vs idx ws rng
      · have hcnt : validB joints ib.2 = true := by
          simp only [validB, Bool.and_eq_true, decide_eq_true_eq]
          omega
        rw [List.countP_cons, hcnt]
        have hstep : boneStep joints (vs, idx, ws, rng) ib =
            ((boneLoop ((joints.getD ib.2.fromIdx default).pt)
                (((joints.getD ib.2.toIdx default).pt).x - ((joints.getD ib.2.fromIdx default).pt).x)
                (((joints.getD ib.2.toIdx default).pt).y - ((joints.getD ib.2.fromIdx default).pt).y)
                (((joints.getD ib.2.toIdx default).pt).z - ((joints.getD ib.2.fromIdx default).pt).z)
                ((rng.next_range 0.1 0.5).1) ib.1 (vs, idx, ws)).1,
             (boneLoop ((joints.getD ib.2.fromIdx default).pt)
                (((joints.getD ib.2.toIdx default).pt).x - ((joints.getD ib.2.fromIdx default).pt).x)
                (((joints.getD ib.2.toIdx default).pt).y - ((joints.getD ib.2.fromIdx default).pt).y)
                (((joints.getD ib.2.toIdx default).pt).z - ((joints.getD ib.2.fromIdx default).pt).z)
                ((rng.next_range 0.1 0.5).1) ib.1 (vs, idx, ws)).2.1,
             (boneLoop ((joints.getD ib.2.fromIdx default).pt)
                (((joints.getD ib.2.toIdx default).pt).x - ((joints.getD ib.2.fromIdx default).pt).x)
                (((joints.getD ib.2.toIdx default).pt).y - ((joints.getD ib.2.fromIdx default).pt).y)
                (((joints.getD ib.2.toIdx default).pt).z - ((joints.getD ib.2.fromIdx default).pt).z)
                ((rng.next_range 0.1 0.5).1) ib.1 (vs, idx, ws)).2.2,
             (rng.next_range 0.1 0.5).2) := by
          unfold boneStep; rw [if_neg hv]
        rw [hstep]
        obtain ⟨b1, b2, b3, b4, b5⟩ := boneLoop_spec
          ((joints.getD ib.2.fromIdx default).pt)
          (((joints.getD ib.2.toIdx default).pt).x - ((joints.getD ib.2.fromIdx default).pt).x)
          (((joints.getD ib.2.toIdx default).pt).y - ((joints.getD ib.2.fromIdx default).pt).y)
          (((joints.getD ib.2.toIdx default).pt).z - ((joints.getD ib.2.fromIdx default).pt).z)
          ((rng.next_range 0.1 0.5).1) ib.1 vs idx ws
        rcases hbl : boneLoop ((joints.getD ib.2.fromIdx default).pt)
            (((joints.getD ib.2.toIdx default).pt).x - ((joints.getD ib.2.fromIdx default).pt).x)
            (((joints.getD ib.2.toIdx default).pt).y - ((joints.getD ib.2.fromIdx default).pt).y)
            (((joints.getD ib.2.toIdx default).pt).z - ((joints.getD ib.2.fromIdx default).pt).z)
            ((rng.next_range 0.1 0.5).1) ib.1 (vs, idx, ws) with ⟨bvs, bidx, bws⟩
        rw [hbl] at b1 b2 b3 b4 b5
        dsimp only at b1 b2 b3 b4 b5 ⊢
        obtain ⟨h1, h2, h3, h4, h5⟩ := ih bvs bidx bws ((rng.next_range 0.1 0.5).2)
        refine ⟨?_, ?_, ?_, ?_, ?_⟩
        · rw [h1, b1]; simp; omega
        · rw [h2, b2]; simp; omega
        · rw [h3, b3]; simp; omega
        · intro h0
          exact fun x hx => h4 (b4 h0) x hx
        · intro h0
          exact fun w hw => h5 (b5 h0) w hw

theorem countP_enum (p : Bone → Bool) (l : List Bone) :
    l.enum.countP (fun ib => p ib.2) = l.countP p := by
  have h := List.countP_map p Prod.snd l.enum
  rw [List.enum_map_snd] at h
  exact h.symm

/-! ### Skeleton layer lemmas: the pair scan -/

theorem getD_set_self {l : List Bool} {j : Nat} (h : j < l.length) (x : Bool) :
    (l.set j x).getD j false = x := by
  induction l generalizing j with
  | nil => simp at h
  | cons a t ih =>
      cases j with
      | zero => rfl
      | succ j => exact ih (Nat.lt_of_succ_lt_succ h) 

theorem getD_set_ne {l : List Bool} {i j : Nat} (hne : i ≠ j) (x : Bool) :
    (l.set j x).getD i false = l.getD i false := by
  induction l generalizing i j with
  | nil => simp
  | cons a t ih =>
      cases j with
      | zero =>
          cases i with
          | zero => exact absurd rfl hne
          | succ i => rfl
      | succ j =>
          cases i with
          | zero => rfl
          | succ i => exact ih (fun h => hne (by rw [h]))

theorem count_set_true {l : List Bool} {j : Nat} (hj : j < l.length)
    (hf : l.getD j false = false) :
    countTrue (l.set j true) = countTrue l + 1 := by
  induction l generalizing j with
  | nil => simp at hj
  | cons a t ih =>
      cases j with
      | zero =>
          have ha : a = false := hf
          subst ha
          simp [countTrue, List.count_cons]
      | succ j =>
          have h' := ih (Nat.lt_of_succ_lt_succ hj) hf
          simp only [countTrue, List.set_cons_succ, List.count_cons] at h' ⊢
          omega

theorem all_true_of_count {l : List Bool} (h : countTrue l = l.length) :
    ∀ v < l.length, l.getD v false = true := by
  induction l with
  | nil => intro v hv; exact absurd hv (Nat.not_lt_zero v)
  | cons a t ih =>
      intro v hv
      have hle : t.count true ≤ t.length := List.count_le_length true t
      unfold countTrue at h
      simp only [List.count_cons, List.length_cons] at h
      cases a with
      | false =>
          exfalso
          simp at h
          omega
      | true =>
          cases v with
          | zero => rfl
          | succ v =>
              have hc : countTrue t = t.length := by
                unfold countTrue
                simp at h
                omega
              exact ih hc v (Nat.lt_of_succ_lt_succ hv)

theorem exists_false_of_count {l : List Bool} (h : countTrue l < l.length) :
    ∃ j, j < l.length ∧ l.getD j false = false := by
  induction l with
  | nil => simp [countTrue] at h
  | cons a t ih =>
      cases a with
      | false => exact ⟨0, by simp, rfl⟩
      | true =>
          have h' : countTrue t < t.length := by
            unfold countTrue at h ⊢
            simp only [List.count_cons, List.length_cons] at h
            simp at h
            omega
          obtain ⟨j, hj, hjf⟩ := ih h'
          exact ⟨j + 1, by simpa using Nat.succ_lt_succ hj, hjf⟩

theorem innerUpd_none {subset : List Point} {inTree : List Bool} {i : Nat}
    {b : Option ℚ × Nat × Nat} {j : Nat}
    (h : (innerUpd subset inTree i b j).1 = none) :
    b.1 = none ∧ inTree.getD j false = true := by
  unfold innerUpd at h
  by_cases hj : inTree.getD j false = true
  · rw [if_pos hj] at h; exact ⟨h, hj⟩
  · rw [if_neg hj] at h
    exfalso
    rcases b with ⟨bd, bi, bj⟩
    cases bd with
    | none => simp at h
    | some bdv =>
        split at h
        all_goals try simp at h
        all_goals split at h <;> simp at h

theorem innerFold_none {subset : List Point} {inTree : List Bool} {i : Nat}
    {b : Option ℚ × Nat × Nat} {l : List Nat}
    (h : (l.foldl (innerUpd subset inTree i) b).1 = none) :
    b.1 = none ∧ ∀ j ∈ l, inTree.getD j false = true := by
  induction l generalizing b with
  | nil => exact ⟨h, by simp⟩
  | cons j l ih =>
      rw [List.foldl_cons] at h
      obtain ⟨h1, h2⟩ := ih h
      obtain ⟨h3, h4⟩ := innerUpd_none h1
      refine ⟨h3, ?_⟩
      intro t ht
      rcases List.mem_cons.mp ht with rfl | ht
      · exact h4
      · exact h2 t ht

theorem outerFold_none {subset : List Point} {inTree : List Bool}
    {b : Option ℚ × Nat × Nat} {l : List Nat}
    (h : (l.foldl (outerUpd subset inTree) b).1 = none) :
    b.1 = none ∧ ∀ i ∈ l, inTree.getD i false = true →
      ∀ j ∈ List.range subset.length, inTree.getD j false = true := by
  induction l generalizing b with
  | nil => exact ⟨h, by simp⟩
  | cons i l ih =>
      rw [List.foldl_cons] at h
      obtain ⟨h1, h2⟩ := ih h
      have h3 : b.1 = none ∧ (inTree.getD i false = true →
          ∀ j ∈ List.range subset.length, inTree.getD j false = true) := by
        unfold outerUpd at h1
        by_cases hi : inTree.getD i false = true
        · rw [if_pos hi] at h1
          obtain ⟨hb, hall⟩ := innerFold_none h1
          exact ⟨hb, fun _ => hall⟩
        · rw [if_neg hi] at h1
          exact ⟨h1, fun hcon => absurd hcon hi⟩
      refine ⟨h3.1, ?_⟩
      intro t ht
      rcases List.mem_cons.mp ht with rfl | ht
      · exact h3.2
      · exact h2 t ht

/-- Progress: while some point is in the tree and some point is not, the
scan finds a pair (`best_dist < inf` in the source). -/
theorem scanPairs_isSome {subset : List Point} {inTree : List Bool}
    (hi : ∃ i, i < subset.length ∧ inTree.getD i false = true)
    (hj : ∃ j, j < subset.length ∧ inTree.getD j false = false) :
    (scanPairs subset inTree).1.isSome = true := by
  obtain ⟨i0, hi0, hi0t⟩ := hi
  obtain ⟨j0, hj0, hj0f⟩ := hj
  rw [Option.isSome_iff_ne_none]
  intro hnone
  obtain ⟨_, hall⟩ := outerFold_none hnone
  have := hall i0 (List.mem_range.mpr hi0) hi0t j0 (List.mem_range.mpr hj0)
  rw [this] at hj0f
  simp at hj0f

theorem innerUpd_good {subset : List Point} {inTree : List Bool} {i : Nat}
    (hi : i < subset.length) (hit : inTree.getD i false = true)
    {b : Option ℚ × Nat × Nat} (hb : GoodBest subset inTree b) {j : Nat}
    (hj : j < subset.length) :
    GoodBest subset inTree (innerUpd subset inTree i b j) := by
  unfold innerUpd
  by_cases hjt : inTree.getD j false = true
  · rw [if_pos hjt]; exact hb
  · rw [if_neg hjt]
    have hjf : inTree.getD j false = false := Bool.eq_false_iff.mpr hjt
    rcases b with ⟨bd, bi, bj⟩
    cases bd with
    | none => exact fun d hd => ⟨hi, hj, hit, hjf⟩
    | some bdv =>
        by_cases hdlt : dist2 (subset.getD i default) (subset.getD j default) < bdv
        · simp only [if_pos hdlt]
          exact fun d hd => ⟨hi, hj, hit, hjf⟩
        · simp only [if_neg hdlt]
          exact hb

theorem innerFold_good {subset : List Point} {inTree : List Bool} {i : Nat}
    (hi : i < subset.length) (hit : inTree.getD i false = true)
    {b : Option ℚ × Nat × Nat} (hb : GoodBest subset inTree b) {l : List Nat}
    (hl : ∀ j ∈ l, j < subset.length) :
    GoodBest subset inTree (l.foldl (innerUpd subset inTree i) b) := by
  induction l generalizing b with
  | nil => exact hb
  | cons j l ih =>
      rw [List.foldl_cons]
      exact ih (innerUpd_good hi hit hb (hl j (List.mem_cons_self _ _)))
        (fun t ht => hl t (List.mem_cons_of_mem _ ht))

theorem outerFold_good {subset : List Point} {inTree : List Bool}
    {b : Option ℚ × Nat × Nat} (hb : GoodBest subset inTree b) {l : List Nat}
    (hl : ∀ i ∈ l, i < subset.length) :
    GoodBest subset inTree (l.foldl (outerUpd subset inTree) b) := by
  induction l generalizing b with
  | nil => exact hb
  | cons i l ih =>
      rw [List.foldl_cons]
      refine ih ?_ (fun t ht => hl t (List.mem_cons_of_mem _ ht))
      unfold outerUpd
      by_cases hit : inTree.getD i false = true
      · rw [if_pos hit]
        exact innerFold_good (hl i (List.mem_cons_self _ _)) hit hb
          (fun j hj => List.mem_range.mp hj)
      · rw [if_neg hit]; exact hb

/-- Soundness of the pair scan. -/
theorem scanPairs_good (subset : List Point) (inTree : List Bool) :
    GoodBest subset inTree (scanPairs subset inTree) := by
  unfold scanPairs
  exact outerFold_good (fun d hd => by simp at hd)
    (fun i hi => List.mem_range.mp hi)

/-! ### Skeleton layer lemmas: the Prim loop invariant -/

theorem getD_replicate_false (n v : Nat) :
    (List.replicate n false).getD v false = false := by
  induction n generalizing v with
  | zero => rfl
  | succ n ih =>
      cases v with
      | zero => rfl
      | succ v => exact ih v

theorem adjB_mono {bs bs' : List Bone} (hsub : ∀ b ∈ bs, b ∈ bs') {u v : Nat}
    (h : adjB bs u v) : adjB bs' u v := by
  obtain ⟨b, hb, hor⟩ := h
  exact ⟨b, hsub b hb, hor⟩

theorem reach_mono {bs bs' : List Bone} (hsub : ∀ b ∈ bs, b ∈ bs') {u v : Nat}
    (h : Relation.ReflTransGen (adjB bs) u v) :
    Relation.ReflTransGen (adjB bs') u v :=
  Relation.ReflTransGen.mono (fun _ _ hab => adjB_mono hsub hab) h

theorem primInv_base {subset : List Point} {n : Nat} (hn : n = subset.length)
    (h2 : 2 ≤ n) (rng : SeededRNG) :
    PrimInv n 0 ((List.replicate n false).set 0 true, [], rng) := by
  have hpos : 0 < n := by omega
  have hlenr : (List.replicate n false).length = n := List.length_replicate n false
  refine ⟨?_, ?_, ?_, rfl, ?_, ?_, List.Pairwise.nil⟩
  · simp [List.length_set, hlenr]
  · show countTrue ((List.replicate n false).set 0 true) = 1
    rw [count_set_true (by rw [hlenr]; exact hpos) (getD_replicate_false n 0)]
    show List.count true (List.replicate n false) + 1 = 1
    rw [List.count_eq_zero.mpr (by simp [List.mem_replicate])]
  · exact getD_set_self (by rw [hlenr]; exact hpos) true
  · intro b hb; cases hb
  · intro v hv hvt
    by_cases h0 : v = 0
    · subst h0; exact Relation.ReflTransGen.refl
    · rw [getD_set_ne h0 true, getD_replicate_false] at hvt
      cases hvt

theorem primStep_inv {subset : List Point} {n k : Nat} (hn : n = subset.length)
    {st : List Bool × List Bone × SeededRNG}
    (hinv : PrimInv n k st) (hk : k + 1 < n) :
    PrimInv n (k + 1) (primStep subset st) := by
  obtain ⟨it, bs, rng⟩ := st
  obtain ⟨hlen, hcnt, hroot, hblen, hbnd, hreach, hfresh⟩ := hinv
  dsimp only at hlen hcnt hroot hblen hbnd hreach hfresh
  have hsome : (scanPairs subset it).1.isSome = true := by
    refine scanPairs_isSome ⟨0, by omega, hroot⟩ ?_
    have : countTrue it < it.length := by rw [hlen]; omega
    obtain ⟨j, hj, hjf⟩ := exists_false_of_count this
    exact ⟨j, by rw [hlen] at hj; omega, hjf⟩
  rcases hscan : scanPairs subset it with ⟨od, bi, bj⟩
  rw [hscan] at hsome
  cases od with
  | none => simp at hsome
  | some d =>
  have hgood := scanPairs_good subset it
  rw [hscan] at hgood
  obtain ⟨hbi, hbj, hbit, hbjf⟩ := hgood d rfl
  rw [← hn] at hbi hbj
  have hbij : bi ≠ bj := fun h => by rw [h, hbjf] at hbit; cases hbit
  have hbj0 : bj ≠ 0 := fun h => by rw [h, hroot] at hbjf; cases hbjf
  have hps : primStep subset (it, bs, rng) =
      (it.set bj true,
       bs ++ [⟨bi, bj, pyRound4 (pySqrt d), pyRound4 ((rng.next_range 0.3 1).1)⟩],
       (rng.next_range 0.3 1).2) := by
    unfold primStep
    rw [hscan]
  rw [hps]
  have hbjlt : bj < it.length := by rw [hlen]; exact hbj
  refine ⟨?_, ?_, ?_, ?_, ?_, ?_, ?_⟩
  · simpa [List.length_set] using hlen
  · show countTrue (it.set bj true) = k + 1 + 1
    rw [count_set_true hbjlt hbjf, hcnt]
  · show (it.set bj true).getD 0 false = true
    rw [getD_set_ne (fun h => hbj0 h.symm) true]
    exact hroot
  · simp [hblen]
  · intro b hb
    rcases List.mem_append.mp hb with hb | hb
    · obtain ⟨h1, h2, h3, h4, h5⟩ := hbnd b hb
      have hf : b.fromIdx ≠ bj := fun h => by rw [h, hbjf] at h4; cases h4
      have ht : b.toIdx ≠ bj := fun h => by rw [h, hbjf] at h5; cases h5
      exact ⟨h1, h2, h3, by rw [getD_set_ne hf true]; exact h4,
             by rw [getD_set_ne ht true]; exact h5⟩
    · rw [List.mem_singleton.mp hb]
      refine ⟨hbi, hbj, hbij, ?_, ?_⟩
      · show (it.set bj true).getD bi false = true
        rw [getD_set_ne hbij true]; exact hbit
      · exact getD_set_self hbjlt true
  · intro v hv hvt
    have hsub : ∀ b ∈ bs, b ∈ bs ++
        [(⟨bi, bj, pyRound4 (pySqrt d), pyRound4 ((rng.next_range 0.3 1).1)⟩ : Bone)] :=
      fun b hb => List.mem_append_left _ hb
    by_cases hvj : v = bj
    · subst hvj
      have hreach_i : Relation.ReflTransGen (adjB bs) 0 bi := hreach bi hbi hbit
      refine Relation.ReflTransGen.tail (reach_mono hsub hreach_i) ?_
      exact ⟨_, List.mem_append_right _ (List.mem_singleton_self _), Or.inl ⟨rfl, rfl⟩⟩
    · rw [getD_set_ne hvj true] at hvt
      exact reach_mono hsub (hreach v hv hvt)
  · rw [List.pairwise_append]
    refine ⟨hfresh, List.pairwise_singleton _ _, ?_⟩
    intro b hb b' hb'
    rw [List.mem_singleton.mp hb']
    obtain ⟨h1, h2, h3, h4, h5⟩ := hbnd b hb
    constructor
    · show bj ≠ b.fromIdx
      exact fun h => by rw [← h, hbjf] at h4; cases h4
    · show bj ≠ b.toIdx
      exact fun h => by rw [← h, hbjf] at h5; cases h5

theorem primIter_inv (subset : List Point) (n : Nat) (hn : n = subset.length)
    (h2 : 2 ≤ n) (rng : SeededRNG) :
    ∀ k, k ≤ n - 1 →
      PrimInv n k
        ((primStep subset)^[k] ((List.replicate n false).set 0 true, [], rng)) := by
  intro k
  induction k with
  | zero => exact fun _ => primInv_base hn h2 rng
  | succ k ih =>
      intro hk
      rw [Function.iterate_succ_apply']
      exact primStep_inv hn (ih (by omega)) (by omega)

/-! ### Skeleton layer lemmas: the bone graph is a tree -/

theorem boneGraph_adj {n : Nat} {bones : List Bone} {u v : Nat}
    (hu : u < n) (hv : v < n) (hne : u ≠ v) (h : adjB bones u v) :
    (boneGraph n bones).Adj ⟨u, hu⟩ ⟨v, hv⟩ := by
  rw [boneGraph, SimpleGraph.fromRel_adj]
  obtain ⟨b, hb, hor⟩ := h
  refine ⟨Fin.ne_of_val_ne hne, ?_⟩
  rcases hor with ⟨hf, ht⟩ | ⟨hf, ht⟩
  · exact Or.inl ⟨b, hb, hf, ht⟩
  · exact Or.inr ⟨b, hb, hf, ht⟩

theorem boneGraph_connected {n : Nat} {bones : List Bone} (h2 : 2 ≤ n)
    (hbnd : ∀ b ∈ bones, b.fromIdx < n ∧ b.toIdx < n ∧ b.fromIdx ≠ b.toIdx)
    (hreach : ∀ v < n, Relation.ReflTransGen (adjB bones) 0 v) :
    (boneGraph n bones).Connected := by
  have hlift : ∀ u v : Nat, Relation.ReflTransGen (adjB bones) u v →
      ∀ (hu : u < n) (hv : v < n),
        (boneGraph n bones).Reachable ⟨u, hu⟩ ⟨v, hv⟩ := by
    intro u v h
    induction h with
    | refl => intro hu hv; rfl
    | tail hseg hadj ih =>
        intro hu hv
        obtain ⟨b, hb, hor⟩ := hadj
        obtain ⟨hbf, hbt, hbne⟩ := hbnd b hb
        rcases hor with ⟨hf, ht⟩ | ⟨hf, ht⟩
        · have hw : _ < n := hf ▸ hbf
          refine (ih hu hw).trans (SimpleGraph.Adj.reachable ?_)
          exact boneGraph_adj hw hv (by rw [← hf, ← ht]; exact hbne)
            ⟨b, hb, Or.inl ⟨hf, ht⟩⟩
        · have hw : _ < n := ht ▸ hbt
          refine (ih hu hw).trans (SimpleGraph.Adj.reachable ?_)
          exact boneGraph_adj hw hv (by rw [← hf, ← ht]; exact hbne.symm)
            ⟨b, hb, Or.inr ⟨hf, ht⟩⟩
  rw [SimpleGraph.connected_iff]
  refine ⟨?_, ⟨⟨0, by omega⟩⟩⟩
  intro u v
  have hu := hlift 0 u.val (hreach u.val u.isLt) (by omega) u.isLt
  have hv := hlift 0 v.val (hreach v.val v.isLt) (by omega) v.isLt
  exact hu.symm.trans hv

/-- Adding one edge `{a, b}` to an acyclic graph in which `b` is isolated
keeps the graph acyclic: a cycle avoiding `b` lives in the old graph, while
a cycle through `b` would have to use the unique edge at `b` twice. -/
theorem pendant_acyclic {V : Type} [DecidableEq V] {G : SimpleGraph V} {a b : V}
    (hab : a ≠ b) (hb : ∀ x, ¬ G.Adj b x) (hG : G.IsAcyclic) :
    (G ⊔ SimpleGraph.fromRel (fun u v => u = a ∧ v = b)).IsAcyclic := by
  intro v c hc
  have hAdj : ∀ x y : V,
      (G ⊔ SimpleGraph.fromRel (fun u v => u = a ∧ v = b)).Adj x y →
      G.Adj x y ∨ (x = a ∧ y = b) ∨ (x = b ∧ y = a) := by
    intro x y hxy
    rcases hxy with hxy | hxy
    · exact Or.inl hxy
    · rw [SimpleGraph.fromRel_adj] at hxy
      rcases hxy.2 with ⟨rfl, rfl⟩ | ⟨rfl, rfl⟩
      · exact Or.inr (Or.inl ⟨rfl, rfl⟩)
      · exact Or.inr (Or.inr ⟨rfl, rfl⟩)
  by_cases hbs : b ∈ c.support
  · have hc' := hc.rotate hbs
    revert hc'
    generalize c.rotate hbs = c'
    intro hc'
    cases c' with
    | nil => exact hc'.not_of_nil
    | cons hadj p =>
        rcases hAdj _ _ hadj with hg | ⟨hba, _⟩ | ⟨_, hwa⟩
        · exact hb _ hg
        · exact hab hba.symm
        · have hwa' := hwa.symm
          subst hwa'
          obtain ⟨w2, hadj2, q, hq⟩ :=
            SimpleGraph.Walk.exists_eq_cons_of_ne (Ne.symm hab) p.reverse
          have hw2 : a = w2 := by
            rcases hAdj _ _ hadj2 with hg | ⟨hba, _⟩ | ⟨_, hwa2⟩
            · exact absurd hg (hb _)
            · exact absurd hba.symm hab
            · exact hwa2.symm
          subst hw2
          have hmem : s(b, a) ∈ p.edges := by
            have : s(b, a) ∈ p.reverse.edges := by
              rw [hq, SimpleGraph.Walk.edges_cons]
              exact List.mem_cons_self _ _
            rwa [SimpleGraph.Walk.edges_reverse, List.mem_reverse] at this
          have hnodup := hc'.edges_nodup
          rw [SimpleGraph.Walk.edges_cons, List.nodup_cons] at hnodup
          exact hnodup.1 hmem
  · have hsub : ∀ e ∈ c.edges, e ∈ G.edgeSet := by
      intro e he
      induction e using Sym2.ind with
      | _ x y =>
          rcases hAdj x y (c.adj_of_mem_edges he) with hg | ⟨_, rfl⟩ | ⟨rfl, _⟩
          · exact hg
          · exact absurd (SimpleGraph.Walk.snd_mem_support_of_mem_edges c he) hbs
          · exact absurd (SimpleGraph.Walk.fst_mem_support_of_mem_edges c he) hbs
    exact hG (c.transfer G hsub) (hc.transfer hsub)

theorem boneGraph_nil_acyclic (n : Nat) : (boneGraph n []).IsAcyclic := by
  have h : boneGraph n [] = ⊥ := by
    ext u v
    simp [boneGraph, SimpleGraph.fromRel_adj]
  rw [h]
  exact SimpleGraph.isAcyclic_bot

theorem boneGraph_acyclic {n : Nat} (l : List Bone)
    (hbnd : ∀ b ∈ l, b.fromIdx < n ∧ b.toIdx < n ∧ b.fromIdx ≠ b.toIdx)
    (hfresh : List.Pairwise freshRel l) :
    (boneGraph n l).IsAcyclic := by
  induction l using List.reverseRecOn with
  | nil => exact boneGraph_nil_acyclic n
  | append_singleton l b ih =>
      rw [List.pairwise_append] at hfresh
      obtain ⟨hfl, _, hcross⟩ := hfresh
      have hbl : ∀ b' ∈ l, b'.fromIdx < n ∧ b'.toIdx < n ∧ b'.fromIdx ≠ b'.toIdx :=
        fun b' hb' => hbnd b' (List.mem_append_left _ hb')
      obtain ⟨hf, ht, hne⟩ :=
        hbnd b (List.mem_append_right _ (List.mem_singleton_self _))
      have hG := ih hbl hfl
      have hsplit : boneGraph n (l ++ [b]) = boneGraph n l ⊔
          SimpleGraph.fromRel (fun u v : Fin n => b.fromIdx = u.val ∧ b.toIdx = v.val) := by
        ext u v
        simp only [boneGraph, SimpleGraph.fromRel_adj, SimpleGraph.sup_adj,
          List.mem_append, List.mem_singleton]
        constructor
        · rintro ⟨huv, hor⟩
          rcases hor with ⟨b', hb' | rfl, h⟩ | ⟨b', hb' | rfl, h⟩
          · exact Or.inl ⟨huv, Or.inl ⟨b', hb', h⟩⟩
          · exact Or.inr ⟨huv, Or.inl h⟩
          · exact Or.inl ⟨huv, Or.inr ⟨b', hb', h⟩⟩
          · exact Or.inr ⟨huv, Or.inr h⟩
        · rintro (⟨huv, hor⟩ | ⟨huv, hor⟩)
          · rcases hor with ⟨b', hb', h⟩ | ⟨b', hb', h⟩
            · exact ⟨huv, Or.inl ⟨b', Or.inl hb', h⟩⟩
            · exact ⟨huv, Or.inr ⟨b', Or.inl hb', h⟩⟩
          · rcases hor with h | h
            · exact ⟨huv, Or.inl ⟨b, Or.inr rfl, h⟩⟩
            · exact ⟨huv, Or.inr ⟨b, Or.inr rfl, h⟩⟩
      have hconv : SimpleGraph.fromRel
            (fun u v : Fin n => b.fromIdx = u.val ∧ b.toIdx = v.val) =
          SimpleGraph.fromRel
            (fun u v : Fin n => u = (⟨b.fromIdx, hf⟩ : Fin n) ∧
                                v = (⟨b.toIdx, ht⟩ : Fin n)) := by
        ext u v
        simp only [SimpleGraph.fromRel_adj, Fin.ext_iff]
        constructor
        · rintro ⟨h1, h2⟩
          refine ⟨h1, ?_⟩
          rcases h2 with ⟨ha, hb'⟩ | ⟨ha, hb'⟩
          · exact Or.inl ⟨ha.symm, hb'.symm⟩
          · exact Or.inr ⟨ha.symm, hb'.symm⟩
        · rintro ⟨h1, h2⟩
          refine ⟨h1, ?_⟩
          rcases h2 with ⟨ha, hb'⟩ | ⟨ha, hb'⟩
          · exact Or.inl ⟨ha.symm, hb'.symm⟩
          · exact Or.inr ⟨ha.symm, hb'.symm⟩
      rw [hsplit, hconv]
      refine pendant_acyclic (Fin.ne_of_val_ne hne) ?_ hG
      intro x hx
      rw [boneGraph, SimpleGraph.fromRel_adj] at hx
      obtain ⟨hxy, hor⟩ := hx
      rcases hor with ⟨b', hb', h1, h2⟩ | ⟨b', hb', h1, h2⟩
      · exact (hcross b' hb' b (List.mem_singleton_self _)).1 h1.symm
      · exact (hcross b' hb' b (List.mem_singleton_self _)).2 h2.symm

/-! ## Claims -/

/-- C1: for every master_seed, content_type, density and chunk_coords, two
independent calls of `run_pipeline` with the same arguments return identical
result records.  The embedding is a pure function of exactly these four
arguments — every stochastic decision routes through `SeededRNG` instances
seeded from `derive_layer_seed`, and no other source of variation exists —
so determinism is definitional. -/
theorem c1_determinism (ms : Int) (ct : String) (d : ℚ) (cc : Int × Int × Int) :
    run_pipeline ms ct d cc = run_pipeline ms ct d cc := rfl

/-- C6 (counterexample): `next_float` is *not* always below 1.  Seeding with
13875032176021185972 (the xorshift preimage of `0xFFFFFFFF`) makes the next
`next_float` return exactly 1, because the source divides the masked low
32 bits by `0xFFFFFFFF = 2^32 - 1` rather than by `2^32`. -/
theorem c6_counterexample :
    (SeededRNG.init 13875032176021185972).next_float.1 = 1 ∧
    ¬ ((SeededRNG.init 13875032176021185972).next_float.1 < 1) := by
  decide!

/-- C6 (amended): `next_float` masks the low 32 bits of `next_u64` and
divides by `0xFFFFFFFF`; the result lies in the *closed* interval [0, 1]
(it equals 1 exactly when the low 32 bits are all ones). -/
theorem c6_next_float_range (r : SeededRNG) :
    r.next_float.1 = ((xsStep r.state % 2^32 : Nat) : ℚ) / 0xFFFFFFFF ∧
    0 ≤ r.next_float.1 ∧ r.next_float.1 ≤ 1 := by
  have hdef : r.next_float.1 = ((xsStep r.state % 2^32 : Nat) : ℚ) / 0xFFFFFFFF := rfl
  refine ⟨hdef, ?_, ?_⟩
  · rw [hdef]; positivity
  · rw [hdef, div_le_one (by norm_num)]
    have h : xsStep r.state % 2^32 < 2^32 := Nat.mod_lt _ (by norm_num)
    have h' : xsStep r.state % 2^32 ≤ 4294967295 := by omega
    calc ((xsStep r.state % 2^32 : Nat) : ℚ) ≤ ((4294967295 : Nat) : ℚ) := by
          exact_mod_cast h'
      _ = (0xFFFFFFFF : ℚ) := by norm_num

/-- C7: a `SeededRNG` constructed with seed 0 starts at state 1, and the
state is never 0 after any number of `next_u64` calls: each xor-shift stage
maps nonzero 64-bit states to nonzero 64-bit states. -/
theorem c7_zero_seed_safety :
    (SeededRNG.init 0).state = 1 ∧
    ∀ n : Nat, (rngAfter (SeededRNG.init 0) n).state ≠ 0 := by
  refine ⟨rfl, ?_⟩
  have key : ∀ n : Nat, (rngAfter (SeededRNG.init 0) n).state ≠ 0 ∧
      (rngAfter (SeededRNG.init 0) n).state < 2^64 := by
    intro n
    induction n with
    | zero => exact ⟨one_ne_zero, by show (1 : Nat) < 2^64; norm_num⟩
    | succ n ih =>
        have hst : (rngAfter (SeededRNG.init 0) (n + 1)).state =
            xsStep (rngAfter (SeededRNG.init 0) n).state := rfl
        rw [hst]
        exact ⟨xsStep_ne_zero ih.1 ih.2, xsStep_lt _⟩
  exact fun n => (key n).1

/-- C8 (code evaluation): for every configuration, the content node's
bounding sphere is centered at `(cx*64 + 32, cy*64 + 32, cz*64)` with
radius 45 — the z component is `cz*64`, *not* the chunk center
`cz*64 + 32` the spec describes (the source writes `"cz": cz * 64`
while giving x and y the `+ 32`). -/
theorem c8_bounding_sphere (cfg : GenerationConfig) (mesh : Mesh) (assets : Assets) :
    (layer_5_world_integration cfg mesh assets).contentNodes.map
        (fun c => c.bounding_sphere) =
      [⟨cfg.chunk_coords.1 * 64 + 32, cfg.chunk_coords.2.1 * 64 + 32,
        cfg.chunk_coords.2.2 * 64, 45⟩] := by
  rcases hcc : cfg.chunk_coords with ⟨cx, cy, cz⟩
  simp [layer_5_world_integration, Scene.contentNodes, hcc]

/-- C9: `run_pipeline` is total — for *every* rational density (in
particular any finite value outside [0, 1]) and all other arguments it
returns a result record; the two divisions of the spatial layer are guarded
by `max(1, ·)` and nothing else in the pipeline can raise. -/
theorem c9_degrades_gracefully (ms : Int) (ct : String) (d : ℚ)
    (cc : Int × Int × Int) :
    (run_pipeline ms ct d cc).isSome = true := by
  obtain ⟨pts, hpts⟩ :=
    Option.isSome_iff_exists.mp (layer_1_isSome (GenerationConfig.make ms ct d cc))
  simp only [run_pipeline, hpts]
  rfl

/-- C2 (counterexample): at the claim's example input
(`master_seed = 42`, `content_type = "creature"`, `density = 0`,
`chunk_coords = (0,0,0)`) the run returns *two* interaction zones, not
zero: the source emits both zones whenever `content_type == "creature"`,
independently of the point count. -/
theorem c2_counterexample :
    (run_pipeline 42 "creature" 0 (0, 0, 0)).map
        (fun r => r.scene.interaction_zones) = some 2 ∧
    (run_pipeline 42 "creature" 0 (0, 0, 0)).map
        (fun r => r.scene.interaction_zones) ≠ some 0 := by
  decide!

/-- C2 (amended): running the pipeline with density 0 and content type
"creature" at `master_seed = 42`, `chunk_coords = (0,0,0)` yields zero
points, an empty skeleton and mesh, does not crash on the empty point set —
and emits exactly two interaction zones (zones depend only on the content
type, not on the generated points). -/
theorem c2_empty_run :
    (run_pipeline 42 "creature" 0 (0, 0, 0)).isSome = true ∧
    (run_pipeline 42 "creature" 0 (0, 0, 0)).map
        (fun r => (r.points, r.skeleton.joints, r.skeleton.bones,
                   r.mesh.vertices, r.mesh.triangles,
                   r.scene.interaction_zones)) =
      some (0, 0, 0, 0, 0, 2) := by
  constructor
  · decide!
  · decide!

/-- C4: for every skeleton input, the mesh has exactly one skinning-weight
entry per vertex, and every entry satisfies
`weight_from + weight_to = 1` exactly (the 4-decimal roundings of `1 - t`
and `t` for `t = seg/6` always sum to 1 in exact arithmetic). -/
theorem c4_mesh_alignment (cfg : GenerationConfig) (skel : Skeleton) :
    (layer_3_mesh_geometry cfg skel).skinning_weights.length
        = (layer_3_mesh_geometry cfg skel).vertices.length ∧
    ((layer_3_mesh_geometry cfg skel).skinning_weights.all
        (fun w => w.weight_from + w.weight_to == 1)) = true := by
  obtain ⟨h1, h2, h3, h4, h5⟩ := boneFold_spec skel.joints skel.bones.enum
    [] [] [] (SeededRNG.init (cfg.layerSeed 3))
  constructor
  · simp only [layer_3_mesh_geometry]
    rw [h1, h2]
    simp
  · rw [List.all_eq_true]
    intro w hw
    simp only [layer_3_mesh_geometry] at hw
    have hsum := h5 (fun w h => absurd h (List.not_mem_nil w)) w hw
    exact beq_iff_eq.mpr hsum

/-- C5: for every skeleton input, the index list length is divisible by 3
and every index is strictly below the vertex count — including the forward
references to the next ring, which is always emitted because triangles are
only generated while `seg < segments_per_bone`. -/
theorem c5_triangle_winding_bound (cfg : GenerationConfig) (skel : Skeleton) :
    (layer_3_mesh_geometry cfg skel).indices.length % 3 = 0 ∧
    ((layer_3_mesh_geometry cfg skel).indices.all
        (fun i => decide (i < (layer_3_mesh_geometry cfg skel).vertices.length)))
      = true := by
  obtain ⟨h1, h2, h3, h4, h5⟩ := boneFold_spec skel.joints skel.bones.enum
    [] [] [] (SeededRNG.init (cfg.layerSeed 3))
  constructor
  · simp only [layer_3_mesh_geometry]
    rw [h3]
    simp only [List.length_nil]
    omega
  · rw [List.all_eq_true]
    intro i hi
    simp only [layer_3_mesh_geometry] at hi ⊢
    have hlt := h4 (fun x hx => absurd hx (List.not_mem_nil x)) i hi
    exact decide_eq_true hlt

/-- C10: each bone with both endpoint indices in range contributes exactly
56 vertices, 56 skinning weights and 288 triangle indices (96 triangles);
bones with an out-of-range endpoint contribute nothing.  Hence the totals
are `56·b`, `56·b`, `288·b` and `96·b` for `b` in-range bones. -/
theorem c10_per_bone_counts (cfg : GenerationConfig) (skel : Skeleton) :
    (layer_3_mesh_geometry cfg skel).vertices.length
        = 56 * skel.bones.countP (validB skel.joints) ∧
    (layer_3_mesh_geometry cfg skel).skinning_weights.length
        = 56 * skel.bones.countP (validB skel.joints) ∧
    (layer_3_mesh_geometry cfg skel).indices.length
        = 288 * skel.bones.countP (validB skel.joints) ∧
    (layer_3_mesh_geometry cfg skel).triangle_count
        = 96 * skel.bones.countP (validB skel.joints) := by
  obtain ⟨h1, h2, h3, _, _⟩ := boneFold_spec skel.joints skel.bones.enum
    [] [] [] (SeededRNG.init (cfg.layerSeed 3))
  have he := countP_enum (validB skel.joints) skel.bones
  rw [he] at h1 h2 h3
  refine ⟨?_, ?_, ?_, ?_⟩
  · simp only [layer_3_mesh_geometry]; rw [h1]; simp only [List.length_nil]; omega
  · simp only [layer_3_mesh_geometry]; rw [h2]; simp only [List.length_nil]; omega
  · simp only [layer_3_mesh_geometry]; rw [h3]; simp only [List.length_nil]; omega
  · simp only [layer_3_mesh_geometry]; rw [h3]; simp only [List.length_nil]; omega

/-- C3: for every input point sequence with `n ≥ 2` points after the
256-point cap, the topology layer returns `n` joints and exactly `n - 1`
bones, every bone endpoint index is `< n`, and the bone edge set forms a
connected acyclic tree (`SimpleGraph.IsTree`) over the `n` joints. -/
theorem c3_skeleton_validity (cfg : GenerationConfig) (points : List Point)
    (h2 : 2 ≤ (points.take 256).length) :
    (layer_2_skeleton_topology cfg points).joints.length
        = (points.take 256).length ∧
    (layer_2_skeleton_topology cfg points).bones.length
        = (points.take 256).length - 1 ∧
    (∀ b ∈ (layer_2_skeleton_topology cfg points).bones,
        b.fromIdx < (points.take 256).length ∧
        b.toIdx < (points.take 256).length) ∧
    (boneGraph (points.take 256).length
        (layer_2_skeleton_topology cfg points).bones).IsTree := by
  have htl : (points.take 256).length ≤ points.length := by
    rw [List.length_take]; omega
  have hplen : ¬ points.length < 2 := by omega
  obtain ⟨hlen, hcnt, hroot, hblen, hbnd, hreach, hfresh⟩ :=
    primIter_inv (points.take 256) (points.take 256).length rfl h2
      (SeededRNG.init (cfg.layerSeed 2)) ((points.take 256).length - 1)
      (le_refl _)
  have hall : ∀ v < (points.take 256).length,
      ((primStep (points.take 256))^[(points.take 256).length - 1]
        ((List.replicate (points.take 256).length false).set 0 true, [],
         SeededRNG.init (cfg.layerSeed 2))).1.getD v false = true := by
    have h := all_true_of_count (l :=
      ((primStep (points.take 256))^[(points.take 256).length - 1]
        ((List.replicate (points.take 256).length false).set 0 true, [],
         SeededRNG.init (cfg.layerSeed 2))).1) (by rw [hlen, hcnt]; omega)
    intro v hv
    exact h v (by rw [hlen]; exact hv)
  simp only [layer_2_skeleton_topology, if_neg hplen]
  refine ⟨?_, hblen, ?_, ?_⟩
  · simp
  · intro b hb
    exact ⟨(hbnd b hb).1, (hbnd b hb).2.1⟩
  · refine ⟨?_, ?_⟩
    · refine boneGraph_connected h2 ?_ ?_
      · exact fun b hb => ⟨(hbnd b hb).1, (hbnd b hb).2.1, (hbnd b hb).2.2.1⟩
      · intro v hv
        exact hreach v hv (hall v hv)
    · refine boneGraph_acyclic _ ?_ hfresh
      exact fun b hb => ⟨(hbnd b hb).1, (hbnd b hb).2.1, (hbnd b hb).2.2.1⟩

/-- Witness for C3 at a concrete two-point input. -/
theorem c3_skeleton_validity_witness :
    (2 ≤ (([⟨0, 0, 0, 1, 0, "creature"⟩, ⟨1, 0, 0, 1, 0, "creature"⟩] : List Point).take 256).length) ∧
    ((layer_2_skeleton_topology (GenerationConfig.make 42 "creature" 0.75 (0, 0, 0))
          [⟨0, 0, 0, 1, 0, "creature"⟩, ⟨1, 0, 0, 1, 0, "creature"⟩]).joints.length
        = (([⟨0, 0, 0, 1, 0, "creature"⟩, ⟨1, 0, 0, 1, 0, "creature"⟩] : List Point).take 256).length ∧
     (layer_2_skeleton_topology (GenerationConfig.make 42 "creature" 0.75 (0, 0, 0))
          [⟨0, 0, 0, 1, 0, "creature"⟩, ⟨1, 0, 0, 1, 0, "creature"⟩]).bones.length
        = (([⟨0, 0, 0, 1, 0, "creature"⟩, ⟨1, 0, 0, 1, 0, "creature"⟩] : List Point).take 256).length - 1 ∧
     (∀ b ∈ (layer_2_skeleton_topology (GenerationConfig.make 42 "creature" 0.75 (0, 0, 0))
          [⟨0, 0, 0, 1, 0, "creature"⟩, ⟨1, 0, 0, 1, 0, "creature"⟩]).bones,
        b.fromIdx < (([⟨0, 0, 0, 1, 0, "creature"⟩, ⟨1, 0, 0, 1, 0, "creature"⟩] : List Point).take 256).length ∧
        b.toIdx < (([⟨0, 0, 0, 1, 0, "creature"⟩, ⟨1, 0, 0, 1, 0, "creature"⟩] : List Point).take 256).length) ∧
     (boneGraph (([⟨0, 0, 0, 1, 0, "creature"⟩, ⟨1, 0, 0, 1, 0, "creature"⟩] : List Point).take 256).length
        (layer_2_skeleton_topology (GenerationConfig.make 42 "creature" 0.75 (0, 0, 0))
          [⟨0, 0, 0, 1, 0, "creature"⟩, ⟨1, 0, 0, 1, 0, "creature"⟩]).bones).IsTree) :=
  ⟨by decide,
   c3_skeleton_validity (GenerationConfig.make 42 "creature" 0.75 (0, 0, 0))
     [⟨0, 0, 0, 1, 0, "creature"⟩, ⟨1, 0, 0, 1, 0, "creature"⟩] (by decide)⟩

end GenMaster
